import Mathlib

/-!
Verification of the task-list manager and its AI ingestion gateway.

The development shallowly embeds the two source files of the repository:
the client page (task store mutations `addTodo`, `toggleTodo`, `deleteTodo`,
`addSubtask`, `toggleSubtask`, the subtask submit handler and the
`generateWithAI` flow) and the `POST /api/ai-generate` route handler.

Modelling conventions:
- JS runtime values are the inductive `JsVal`; the constructor `undefined`
  stands for JS `undefined`, which arises from property access on a
  missing key (`JSON.parse` itself never yields it).
- `JSON.parse` of the upstream response text is a platform primitive; its
  outcome is passed in as `Option JsVal` (`none` = the text is not valid
  JSON, so `JSON.parse` throws).
- A thrown JS exception is `Except.error ()`; code that catches every
  exception is a total function that pattern-matches on the `Except`.
- `String.prototype.trim` is modelled by `jsTrim` (drop whitespace from
  both ends).
- `getId()` (`Date.now() + Math.random()`) is an abstract fresh-identifier
  supply; operations take the fresh identifiers (or a counter from which
  consecutive ones are drawn) as explicit arguments.
-/

/-- JS runtime values: the JSON values plus `undefined`. Objects are finite
association lists of string keys to values. -/
inductive JsVal where
  | null
  | undefined
  | bool (b : Bool)
  | num (n : Int)
  | str (s : String)
  | arr (items : List JsVal)
  | obj (fields : List (String × JsVal))

/-- Field lookup in a JS object; a missing key yields `undefined`. -/
def lookupField : List (String × JsVal) → String → JsVal
  | [], _ => .undefined
  | (k, v) :: rest, key => if k = key then v else lookupField rest key

/-- JS property access `v[key]`. Accessing a property of `null` or
`undefined` throws a TypeError; on any other non-object value the result is
`undefined`. -/
def jsGet : JsVal → String → Except Unit JsVal
  | .null, _ => .error ()
  | .undefined, _ => .error ()
  | .obj fields, key => .ok (lookupField fields key)
  | _, _ => .ok .undefined

/-- Model of JS `String.prototype.trim`: remove whitespace from both ends. -/
def jsTrim (s : String) : String :=
  String.mk (((s.data.dropWhile Char.isWhitespace).reverse.dropWhile
    Char.isWhitespace).reverse)

/-- A subtask of the client page: `{ id, text, completed }`. The text is a
JS value because the AI ingestion path stores whatever value the response
carried. -/
structure Subtask where
  id : Nat
  text : JsVal
  completed : Bool

/-- A todo of the client page: `{ id, text, completed, subtasks }`. -/
structure Todo where
  id : Nat
  text : JsVal
  completed : Bool
  subtasks : List Subtask

/-- The `addTodo` callback (page.tsx lines 35-45), acting on the `todos`
list: reject input that trims to empty, otherwise prepend a fresh task with
the trimmed text, not completed, with no subtasks. The fresh id is passed
explicitly. -/
def addTodo (id : Nat) (newTodo : String) (prev : List Todo) : List Todo :=
  if jsTrim newTodo = "" then prev
  else { id := id, text := .str (jsTrim newTodo), completed := false,
         subtasks := [] } :: prev

/-- The per-element function of `toggleTodo` (page.tsx lines 48-54): flip
`completed` on an id match, otherwise leave the todo alone. -/
def toggleOne (id : Nat) (todo : Todo) : Todo :=
  if todo.id = id then { todo with completed := !todo.completed } else todo

/-- The `toggleTodo` callback (page.tsx lines 48-54): map `toggleOne` over
the list. -/
def toggleTodo (id : Nat) (prev : List Todo) : List Todo :=
  prev.map (toggleOne id)

/-- The `deleteTodo` callback (page.tsx lines 57-59): keep exactly the
todos whose id differs. -/
def deleteTodo (id : Nat) (prev : List Todo) : List Todo :=
  prev.filter (fun todo => todo.id != id)

/-- The per-element function of `addSubtask` (page.tsx lines 62-80): on an
id match append one subtask (text as given, not completed) at the tail. The
fresh subtask id is passed explicitly. -/
def addSubOne (todoId subId : Nat) (subtaskText : String) (todo : Todo) :
    Todo :=
  if todo.id = todoId then
    { todo with subtasks := todo.subtasks ++
        [{ id := subId, text := .str subtaskText, completed := false }] }
  else todo

/-- The `addSubtask` callback (page.tsx lines 62-80): map `addSubOne` over
the list. Note that `addSubtask` itself neither trims nor rejects blank
text; its only caller, the submit handler, does. -/
def addSubtask (todoId subId : Nat) (subtaskText : String)
    (prev : List Todo) : List Todo :=
  prev.map (addSubOne todoId subId subtaskText)

/-- The `handleSubtaskSubmit` callback (page.tsx lines 140-149), restricted
to its effect on the todo list: trim the pending input for the task; if the
result is empty do nothing, otherwise call `addSubtask` with the trimmed
text. This composite realizes the store operation `addSubtask(taskId,
text)` of the spec. -/
def handleSubtaskSubmit (todoId subId : Nat) (input : String)
    (prev : List Todo) : List Todo :=
  if jsTrim input = "" then prev
  else addSubtask todoId subId (jsTrim input) prev

/-- The per-subtask function of `toggleSubtask` (page.tsx lines 83-96):
flip `completed` on a subtask id match. -/
def toggleSubOne (subtaskId : Nat) (sub : Subtask) : Subtask :=
  if sub.id = subtaskId then { sub with completed := !sub.completed }
  else sub

/-- The per-todo function of `toggleSubtask` (page.tsx lines 83-96): on a
task id match, map `toggleSubOne` over its subtasks; otherwise leave the
todo alone. The own fields of the task other than `subtasks` are never
touched. -/
def toggleTodoSubs (todoId subtaskId : Nat) (todo : Todo) : Todo :=
  if todo.id = todoId then
    { todo with subtasks := todo.subtasks.map (toggleSubOne subtaskId) }
  else todo

/-- The `toggleSubtask` callback (page.tsx lines 83-96): map
`toggleTodoSubs` over the list. -/
def toggleSubtask (todoId subtaskId : Nat) (prev : List Todo) :
    List Todo :=
  prev.map (toggleTodoSubs todoId subtaskId)

/-- Outcome of the upstream work of the route handler (route.ts lines 31-49):
either the `openai.chat.completions.create` call (or the access to
`chat.choices[0].message.content`) threw, or it produced a response text
whose `JSON.parse` outcome is the given `Option JsVal` (`none` when the
text, possibly the empty string substituted for a null content, is not
valid JSON). -/
inductive UpstreamOutcome where
  | failure
  | success (parsed : Option JsVal)

/-- An HTTP response of the route handler: status code and JSON body. -/
structure HttpResponse where
  status : Nat
  body : JsVal

/-- The `POST /api/ai-generate` route handler (route.ts lines 16-56), as a
function of the upstream outcome. On upstream failure the outer catch
answers 500 with `{tasks: []}`; when `JSON.parse` throws, `parsed` keeps
its initial value `[]` and the handler answers 200 with `{tasks: []}`;
when `JSON.parse` succeeds the parsed value is placed in the `tasks` field
unchanged — the handler performs no shape validation. -/
def post : UpstreamOutcome → HttpResponse
  | .failure => ⟨500, .obj [("tasks", .arr [])]⟩
  | .success none => ⟨200, .obj [("tasks", .arr [])]⟩
  | .success (some j) => ⟨200, .obj [("tasks", j)]⟩

/-- Outcome of `fetch` plus `res.json()` in `generateWithAI` (page.tsx
lines 103-108): either the fetch rejected or the response body was not
valid JSON (`jsError`), or it parsed to a JS value. -/
inductive FetchOutcome where
  | jsError
  | body (data : JsVal)

/-- Subtasks built by `item.subtasks.map((sub) => ({id: getId(), text: sub,
completed: false}))` (page.tsx lines 115-119), with consecutive fresh ids
starting at `c`. -/
def subtasksFrom (c : Nat) : List JsVal → List Subtask
  | [] => []
  | sub :: rest => { id := c, text := sub, completed := false } ::
      subtasksFrom (c + 1) rest

/-- The `generatedTodos.map((item) => ...)` step of `generateWithAI`
(page.tsx lines 111-120) over the elements of the `tasks` array. For each
item, `item.task` and `item.subtasks` are read (throwing if the item is
`null`); `item.subtasks.map` throws unless `item.subtasks` is an array.
A throw anywhere aborts the whole mapping. Fresh ids are drawn
consecutively from `c`. -/
def mapItems : Nat → List JsVal → Except Unit (List Todo)
  | _, [] => .ok []
  | c, item :: rest =>
    match jsGet item "task" with
    | .error e => .error e
    | .ok t =>
      match jsGet item "subtasks" with
      | .error e => .error e
      | .ok (.arr subs) =>
        (match mapItems (c + 1 + subs.length) rest with
         | .error e => .error e
         | .ok ts =>
           .ok ({ id := c, text := t, completed := false,
                  subtasks := subtasksFrom (c + 1) subs } :: ts))
      | .ok _ => .error ()

/-- The body of the `try` block of `generateWithAI` after the fetch
(page.tsx lines 103-123): read `data.tasks`, map the items to todos
(throwing unless `data.tasks` is an array), prepend them to the previous
list and clear the AI input. An `Except.error` is any thrown JS
exception. -/
def generateInner (c : Nat) (prev : List Todo) :
    FetchOutcome → Except Unit (List Todo × String)
  | .jsError => .error ()
  | .body data =>
    match jsGet data "tasks" with
    | .error e => .error e
    | .ok (.arr items) =>
      (match mapItems c items with
       | .error e => .error e
       | .ok newTasks => .ok (newTasks ++ prev, ""))
    | .ok _ => .error ()

/-- The component state touched by `generateWithAI`: the todo list, the AI
prompt input, and the loading flag. -/
structure GenState where
  todos : List Todo
  aiInput : String
  loadingAi : Bool

/-- The `generateWithAI` callback (page.tsx lines 99-129) as a function of
the fetch outcome. A blank prompt returns before anything happens. The
catch block swallows every exception (state other than the loading flag is
then untouched) and the `finally` clears the loading flag, so the function
is total: no exception escapes to the caller. -/
def generateWithAI (st : GenState) (outcome : FetchOutcome) (c : Nat) :
    GenState :=
  if jsTrim st.aiInput = "" then st
  else
    match generateInner c st.todos outcome with
    | .ok (todos, ai) => { todos := todos, aiInput := ai, loadingAi := false }
    | .error _ => { todos := st.todos, aiInput := st.aiInput,
                    loadingAi := false }

/-- A well-shaped generated record `{task: string, subtasks: string[]}` as
announced by the system prompt of the route. -/
structure GeneratedTask where
  task : String
  subtasks : List String
deriving DecidableEq

/-- Read a JS array as a list of strings, if every element is a string. -/
def asStrings : List JsVal → Option (List String)
  | [] => some []
  | .str s :: rest =>
    (match asStrings rest with
     | some ss => some (s :: ss)
     | none => none)
  | _ :: _ => none

/-- Read a JS value as a well-shaped `{task, subtasks}` record. -/
def asRecord (item : JsVal) : Option GeneratedTask :=
  match jsGet item "task", jsGet item "subtasks" with
  | .ok (.str t), .ok (.arr subs) =>
    (match asStrings subs with
     | some ss => some { task := t, subtasks := ss }
     | none => none)
  | _, _ => none

/-- Read a JS array as a list of well-shaped records. -/
def decodeRecords : List JsVal → Option (List GeneratedTask)
  | [] => some []
  | item :: rest =>
    match asRecord item with
    | none => none
    | some g =>
      match decodeRecords rest with
      | none => none
      | some gs => some (g :: gs)

/-- The todos that `generateWithAI` builds from well-shaped records: one
task per record, in order, with one subtask per listed string, in order,
everything not completed, fresh ids drawn consecutively from `c`. -/
def mkTodos : Nat → List GeneratedTask → List Todo
  | _, [] => []
  | c, g :: rest =>
    { id := c, text := .str g.task, completed := false,
      subtasks := subtasksFrom (c + 1) (g.subtasks.map JsVal.str) } ::
      mkTodos (c + 1 + g.subtasks.length) rest

/-- A text value is blank when it is a string that trims to empty. -/
def isBlankText : JsVal → Bool
  | .str s => jsTrim s == ""
  | _ => false

/-- Whether some task or subtask in the store has blank text. -/
def hasBlankEntity (todos : List Todo) : Bool :=
  todos.any (fun t => isBlankText t.text ||
    t.subtasks.any (fun sub => isBlankText sub.text))

/-- Whether the `tasks` property of a response body is a JS array (the
condition under which `data.tasks.map` does not throw at the `.map`
call). -/
def tasksFieldIsArray (data : JsVal) : Bool :=
  match jsGet data "tasks" with
  | .ok (.arr _) => true
  | _ => false

/-- Whether an HTTP response carries an empty array in its `tasks` field,
the empty result of the gateway. -/
def tasksIsEmptyArr (r : HttpResponse) : Bool :=
  match jsGet r.body "tasks" with
  | .ok (.arr []) => true
  | _ => false

/-! Helper lemmas shared by the claim theorems. -/

/-- Mapping a function that fixes every element of a list is the
identity. -/
theorem map_eq_self_of_mem {α : Type} (l : List α) (f : α → α)
    (h : ∀ a ∈ l, f a = a) : l.map f = l := by
  induction l with
  | nil => rfl
  | cons a as ih =>
    simp only [List.map_cons, h a (by simp)]
    rw [ih (fun x hx => h x (by simp [hx]))]

/-- Toggling one todo twice restores it. -/
theorem toggleOne_invol (id : Nat) (t : Todo) :
    toggleOne id (toggleOne id t) = t := by
  cases t with
  | mk tid ttext tcomp tsubs =>
    by_cases h : tid = id
    · simp [toggleOne, h, Bool.not_not]
    · simp [toggleOne, h]

/-- The texts of the subtasks built by the AI ingestion mapping are the
listed values, unchanged and in order. -/
theorem subtasksFrom_text (c : Nat) (l : List JsVal) :
    (subtasksFrom c l).map Subtask.text = l := by
  induction l generalizing c with
  | nil => rfl
  | cons a rest ih => simp [subtasksFrom, ih]

/-- Every subtask built by the AI ingestion mapping starts not
completed. -/
theorem subtasksFrom_completed (c : Nat) (l : List JsVal) :
    ∀ sub ∈ subtasksFrom c l, sub.completed = false := by
  induction l generalizing c with
  | nil => intro sub h; cases h
  | cons a rest ih =>
    intro sub h
    rw [subtasksFrom] at h
    rcases List.mem_cons.mp h with rfl | h2
    · rfl
    · exact ih (c + 1) sub h2

/-- A JS array reads as a list of strings exactly when it is the image of
that list under `JsVal.str`. -/
theorem asStrings_eq (l : List JsVal) (ss : List String)
    (h : asStrings l = some ss) : l = ss.map JsVal.str := by
  induction l generalizing ss with
  | nil =>
    rw [asStrings] at h
    cases h
    rfl
  | cons a rest ih =>
    cases a <;> simp only [asStrings] at h <;> try cases h
    case str s =>
      split at h
      · next ss2 hrest =>
          cases h
          simp [ih ss2 hrest]
      · cases h

/-- One todo per record. -/
theorem mkTodos_length (c : Nat) (gts : List GeneratedTask) :
    (mkTodos c gts).length = gts.length := by
  induction gts generalizing c with
  | nil => rfl
  | cons g rest ih => simp [mkTodos, ih]

/-- The texts of the built todos are the record texts, in order. -/
theorem mkTodos_text (c : Nat) (gts : List GeneratedTask) :
    (mkTodos c gts).map Todo.text = gts.map (fun g => JsVal.str g.task) := by
  induction gts generalizing c with
  | nil => rfl
  | cons g rest ih => simp [mkTodos, ih]

/-- The subtask texts of the built todos are the listed strings of each
record, in order. -/
theorem mkTodos_subtexts (c : Nat) (gts : List GeneratedTask) :
    (mkTodos c gts).map (fun t => t.subtasks.map Subtask.text) =
      gts.map (fun g => g.subtasks.map JsVal.str) := by
  induction gts generalizing c with
  | nil => rfl
  | cons g rest ih => simp [mkTodos, ih, subtasksFrom_text]

/-- Every built todo starts not completed. -/
theorem mkTodos_completed (c : Nat) (gts : List GeneratedTask) :
    (mkTodos c gts).map Todo.completed = gts.map (fun _ => false) := by
  induction gts generalizing c with
  | nil => rfl
  | cons g rest ih => simp [mkTodos, ih]

/-- Every built subtask starts not completed. -/
theorem mkTodos_sub_completed (c : Nat) (gts : List GeneratedTask) :
    ∀ t ∈ mkTodos c gts, ∀ sub ∈ t.subtasks, sub.completed = false := by
  induction gts generalizing c with
  | nil => intro t h; cases h
  | cons g rest ih =>
    intro t h
    rw [mkTodos] at h
    rcases List.mem_cons.mp h with rfl | h2
    · exact subtasksFrom_completed (c + 1) (g.subtasks.map JsVal.str)
    · exact ih (c + 1 + g.subtasks.length) t h2

/-- The client mapping step succeeds on a list of well-shaped records and
builds exactly the todos described by `mkTodos`. -/
theorem mapItems_decode (items : List JsVal) (gts : List GeneratedTask)
    (c : Nat) (h : decodeRecords items = some gts) :
    mapItems c items = .ok (mkTodos c gts) := by
  induction items generalizing gts c with
  | nil =>
    rw [decodeRecords] at h
    cases h
    rfl
  | cons item rest ih =>
    rw [decodeRecords] at h
    split at h
    · cases h
    · next g hg =>
      split at h
      · cases h
      · next gs hgs =>
        cases h
        rw [asRecord] at hg
        split at hg
        · next t subs h1 h2 =>
          split at hg
          · next ss hss =>
            cases hg
            have hsubs := asStrings_eq subs ss hss
            subst hsubs
            simp only [mapItems, h1, h2]
            rw [ih gs _ hgs]
            simp [mkTodos, List.length_map]
          · cases hg
        · cases hg

/-! Claim theorems. -/

/-- C1: for every input string `t`, `addTask(t)` leaves the store unchanged
iff `t` trims to the empty string; otherwise the store gains exactly one
new task whose text is `t` trimmed, not completed, with no subtasks,
inserted at index 0 with all previously present tasks unchanged and in
their previous relative order. -/
theorem addTodo_spec (id : Nat) (t : String) (prev : List Todo) :
    (addTodo id t prev = prev ↔ jsTrim t = "") ∧
    (jsTrim t ≠ "" → addTodo id t prev =
      { id := id, text := .str (jsTrim t), completed := false,
        subtasks := [] } :: prev) := by
  constructor
  · constructor
    · intro h
      by_contra hne
      rw [addTodo, if_neg hne] at h
      exact absurd (congrArg List.length h) (by simp)
    · intro h
      rw [addTodo, if_pos h]
  · intro h
    rw [addTodo, if_neg h]

/-- Witness for C1, realizing the spec scenario: two successive adds leave
the most recently added task first. -/
theorem addTodo_spec_witness :
    addTodo 2 "Walk dog" (addTodo 1 "Buy milk" []) =
      [{ id := 2, text := .str "Walk dog", completed := false,
         subtasks := [] },
       { id := 1, text := .str "Buy milk", completed := false,
         subtasks := [] }] := by
  rw [(addTodo_spec 1 "Buy milk" []).2 (by decide)]
  rw [(addTodo_spec 2 "Walk dog" _).2 (by decide)]
  rfl

/-- C3 counterexample: the upstream response text `42` is valid JSON
(its parse outcome is the number 42) but does not match the expected
shape, yet the gateway does not yield an empty result: it answers 200 with
`{tasks: 42}`. -/
theorem post_shape_counterexample :
    tasksIsEmptyArr (post (.success (some (.num 42)))) = false ∧
    (post (.success (some (.num 42)))).body =
      .obj [("tasks", .num 42)] ∧
    (post (.success (some (.num 42)))).status = 200 :=
  ⟨rfl, rfl, rfl⟩

/-- C3 amended: when the returned text is not valid JSON the gateway
yields the empty result `{tasks: []}` with status 200 and propagates no
error; but valid JSON that does not match the expected shape is passed
through unvalidated in the `tasks` field. Every invocation answers with
status 200 or 500. -/
theorem post_parse_amended :
    (post (.success none)).status = 200 ∧
    (post (.success none)).body = .obj [("tasks", .arr [])] ∧
    (∀ j : JsVal, (post (.success (some j))).status = 200 ∧
      (post (.success (some j))).body = .obj [("tasks", j)]) ∧
    (∀ o : UpstreamOutcome, (post o).status = 200 ∨ (post o).status = 500) := by
  refine ⟨rfl, rfl, fun j => ⟨rfl, rfl⟩, fun o => ?_⟩
  cases o with
  | failure => exact Or.inr rfl
  | success p =>
    cases p with
    | none => exact Or.inl rfl
    | some j => exact Or.inl rfl

/-- C5: when the upstream completion call fails, the endpoint responds
with HTTP status 500 and body `{tasks: []}`. -/
theorem post_failure_500 :
    post .failure = { status := 500, body := .obj [("tasks", .arr [])] } :=
  rfl

/-- C7: applying `toggleTask(id)` twice returns the store to its original
state; a single application maps each position through `toggleOne`, which
changes only the `completed` field of the matching task and leaves its id, text
and subtasks, and every non-matching task, unchanged. -/
theorem toggleTodo_spec (id : Nat) (s : List Todo) :
    toggleTodo id (toggleTodo id s) = s ∧
    (∀ i : Nat, (toggleTodo id s)[i]? = (s[i]?).map (toggleOne id)) ∧
    (∀ t ∈ s, (toggleOne id t).id = t.id ∧
      (toggleOne id t).text = t.text ∧
      (toggleOne id t).subtasks = t.subtasks ∧
      (t.id ≠ id → toggleOne id t = t) ∧
      (t.id = id → (toggleOne id t).completed = !t.completed)) := by
  refine ⟨?_, ?_, ?_⟩
  · rw [toggleTodo, toggleTodo, List.map_map]
    exact map_eq_self_of_mem s _ (fun a _ => toggleOne_invol id a)
  · intro i
    rw [toggleTodo]
    exact List.getElem?_map ..
  · intro t _
    by_cases h : t.id = id
    · exact ⟨by simp [toggleOne, h], by simp [toggleOne, h],
        by simp [toggleOne, h], fun hne => absurd h hne,
        fun _ => by simp [toggleOne, h]⟩
    · exact ⟨by simp [toggleOne, h], by simp [toggleOne, h],
        by simp [toggleOne, h], fun _ => by simp [toggleOne, h],
        fun heq => absurd heq h⟩

/-- Witness for C7 at a concrete store. -/
theorem toggleTodo_spec_witness :
    toggleTodo 1 (toggleTodo 1
      [{ id := 1, text := .str "a", completed := false, subtasks := [] }]) =
      [{ id := 1, text := .str "a", completed := false, subtasks := [] }] ∧
    (toggleOne 1
      { id := 1, text := .str "a", completed := false,
        subtasks := [] }).completed = true ∧
    toggleOne 1
        { id := 2, text := .str "b", completed := false, subtasks := [] } =
      { id := 2, text := .str "b", completed := false, subtasks := [] } := by
  have h := toggleTodo_spec 1
    [{ id := 1, text := .str "a", completed := false, subtasks := [] }]
  have h2 := toggleTodo_spec 1
    [{ id := 2, text := .str "b", completed := false, subtasks := [] }]
  refine ⟨h.1, ?_, ?_⟩
  · exact (h.2.2 _ (by simp)).2.2.2.2 rfl
  · exact (h2.2.2 _ (by simp)).2.2.2.1 (by decide)

/-- C9: `deleteTask(id)` removes exactly the tasks with matching id, is a
silent no-op when no task has that id, is idempotent, and never changes
the contents or relative order of the other tasks (the result is a
sublist of the original store). -/
theorem deleteTodo_spec (id : Nat) (s : List Todo) :
    (∀ t ∈ deleteTodo id s, t.id ≠ id ∧ t ∈ s) ∧
    (∀ t ∈ s, t.id ≠ id → t ∈ deleteTodo id s) ∧
    ((∀ t ∈ s, t.id ≠ id) → deleteTodo id s = s) ∧
    deleteTodo id (deleteTodo id s) = deleteTodo id s ∧
    List.Sublist (deleteTodo id s) s := by
  refine ⟨?_, ?_, ?_, ?_, ?_⟩
  · intro t ht
    have := List.mem_filter.mp ht
    exact ⟨bne_iff_ne.mp this.2, this.1⟩
  · intro t ht hne
    exact List.mem_filter.mpr ⟨ht, bne_iff_ne.mpr hne⟩
  · intro h
    exact List.filter_eq_self.mpr (fun a ha => bne_iff_ne.mpr (h a ha))
  · apply List.filter_eq_self.mpr
    intro a ha
    exact (List.mem_filter.mp ha).2
  · exact List.filter_sublist s

/-- Witness for C9 at a concrete store. -/
theorem deleteTodo_spec_witness :
    deleteTodo 1
      [{ id := 1, text := .str "a", completed := false, subtasks := [] },
       { id := 2, text := .str "b", completed := false, subtasks := [] }] =
      [{ id := 2, text := .str "b", completed := false, subtasks := [] }] ∧
    ({ id := 2, text := .str "b", completed := false,
       subtasks := [] } : Todo) ∈ deleteTodo 1
      [{ id := 1, text := .str "a", completed := false, subtasks := [] },
       { id := 2, text := .str "b", completed := false, subtasks := [] }] ∧
    deleteTodo 1 (deleteTodo 1
      [{ id := 1, text := .str "a", completed := false, subtasks := [] },
       { id := 2, text := .str "b", completed := false, subtasks := [] }]) =
      deleteTodo 1
      [{ id := 1, text := .str "a", completed := false, subtasks := [] },
       { id := 2, text := .str "b", completed := false, subtasks := [] }] := by
  have h := deleteTodo_spec 1
    [{ id := 1, text := .str "a", completed := false, subtasks := [] },
     { id := 2, text := .str "b", completed := false, subtasks := [] }]
  exact ⟨rfl, h.2.1 _ (by simp) (by decide), h.2.2.2.1⟩

/-- C6: the subtask submit path (the `addSubtask(taskId, text)` operation
of the spec) is
a no-op when the text trims to empty or when no task has the given id;
otherwise it maps each task through `addSubOne`, which appends exactly one
subtask with the trimmed text and `completed = false` at the tail of the
subtask sequence of the matching task and leaves the other fields of that task and
every non-matching task unchanged. -/
theorem handleSubtaskSubmit_spec (tid nid : Nat) (input : String)
    (s : List Todo) :
    (jsTrim input = "" → handleSubtaskSubmit tid nid input s = s) ∧
    ((∀ t ∈ s, t.id ≠ tid) → handleSubtaskSubmit tid nid input s = s) ∧
    (jsTrim input ≠ "" → handleSubtaskSubmit tid nid input s =
      s.map (addSubOne tid nid (jsTrim input))) ∧
    (∀ i : Nat, (addSubtask tid nid (jsTrim input) s)[i]? =
      (s[i]?).map (addSubOne tid nid (jsTrim input))) ∧
    (∀ t : Todo, (t.id ≠ tid → addSubOne tid nid (jsTrim input) t = t) ∧
      (t.id = tid → addSubOne tid nid (jsTrim input) t =
        { t with subtasks := t.subtasks ++
            [{ id := nid, text := .str (jsTrim input),
               completed := false }] })) := by
  refine ⟨?_, ?_, ?_, ?_, ?_⟩
  · intro h
    rw [handleSubtaskSubmit, if_pos h]
  · intro h
    by_cases he : jsTrim input = ""
    · rw [handleSubtaskSubmit, if_pos he]
    · rw [handleSubtaskSubmit, if_neg he, addSubtask]
      exact map_eq_self_of_mem s _
        (fun t ht => by rw [addSubOne, if_neg (h t ht)])
  · intro h
    rw [handleSubtaskSubmit, if_neg h, addSubtask]
  · intro i
    rw [addSubtask]
    exact List.getElem?_map ..
  · intro t
    constructor
    · intro hne
      rw [addSubOne, if_neg hne]
    · intro heq
      rw [addSubOne, if_pos heq]

/-- Witness for C6 at a concrete store: a padded input is trimmed and
appended; a blank input is rejected. -/
theorem handleSubtaskSubmit_spec_witness :
    handleSubtaskSubmit 1 50 " read docs "
      [{ id := 1, text := .str "a", completed := false, subtasks := [] }] =
      [{ id := 1, text := .str "a", completed := false,
         subtasks := [{ id := 50, text := .str "read docs",
                        completed := false }] }] ∧
    handleSubtaskSubmit 1 50 "   "
      [{ id := 1, text := .str "a", completed := false, subtasks := [] }] =
      [{ id := 1, text := .str "a", completed := false, subtasks := [] }] := by
  have h := handleSubtaskSubmit_spec 1 50 " read docs "
    [{ id := 1, text := .str "a", completed := false, subtasks := [] }]
  have h2 := handleSubtaskSubmit_spec 1 50 "   "
    [{ id := 1, text := .str "a", completed := false, subtasks := [] }]
  exact ⟨(h.2.2.1 (by decide)).trans rfl, h2.1 (by decide)⟩

/-- C8: `toggleSubtask(taskId, subtaskId)` flips the completed flag of
exactly the matching subtask within the matching task, never touches the
completed flag of the parent task itself (no cascading), and is a no-op when the
task is not found or when the matching task has no subtask with the given
id. -/
theorem toggleSubtask_spec (todoId subtaskId : Nat) (s : List Todo) :
    ((∀ t ∈ s, t.id ≠ todoId) → toggleSubtask todoId subtaskId s = s) ∧
    ((∀ t ∈ s, t.id = todoId → ∀ sub ∈ t.subtasks, sub.id ≠ subtaskId) →
      toggleSubtask todoId subtaskId s = s) ∧
    (∀ i : Nat, (toggleSubtask todoId subtaskId s)[i]? =
      (s[i]?).map (toggleTodoSubs todoId subtaskId)) ∧
    (∀ t ∈ s, (toggleTodoSubs todoId subtaskId t).id = t.id ∧
      (toggleTodoSubs todoId subtaskId t).text = t.text ∧
      (toggleTodoSubs todoId subtaskId t).completed = t.completed ∧
      (t.id ≠ todoId → toggleTodoSubs todoId subtaskId t = t) ∧
      (t.id = todoId → (toggleTodoSubs todoId subtaskId t).subtasks =
        t.subtasks.map (toggleSubOne subtaskId)) ∧
      (∀ sub ∈ t.subtasks,
        (toggleSubOne subtaskId sub).id = sub.id ∧
        (toggleSubOne subtaskId sub).text = sub.text ∧
        (sub.id ≠ subtaskId → toggleSubOne subtaskId sub = sub) ∧
        (sub.id = subtaskId →
          (toggleSubOne subtaskId sub).completed = !sub.completed))) := by
  refine ⟨?_, ?_, ?_, ?_⟩
  · intro h
    exact map_eq_self_of_mem s _
      (fun t ht => by rw [toggleTodoSubs, if_neg (h t ht)])
  · intro h
    apply map_eq_self_of_mem
    intro t ht
    by_cases hid : t.id = todoId
    · have hsubs : t.subtasks.map (toggleSubOne subtaskId) = t.subtasks :=
        map_eq_self_of_mem _ _ (fun sub hsub => by
          rw [toggleSubOne, if_neg (h t ht hid sub hsub)])
      rw [toggleTodoSubs, if_pos hid, hsubs]
    · rw [toggleTodoSubs, if_neg hid]
  · intro i
    rw [toggleSubtask]
    exact List.getElem?_map ..
  · intro t _
    refine ⟨?_, ?_, ?_, ?_, ?_, ?_⟩
    · by_cases hid : t.id = todoId
      · simp [toggleTodoSubs, hid]
      · simp [toggleTodoSubs, hid]
    · by_cases hid : t.id = todoId
      · simp [toggleTodoSubs, hid]
      · simp [toggleTodoSubs, hid]
    · by_cases hid : t.id = todoId
      · simp [toggleTodoSubs, hid]
      · simp [toggleTodoSubs, hid]
    · intro hne
      rw [toggleTodoSubs, if_neg hne]
    · intro heq
      rw [toggleTodoSubs, if_pos heq]
    · intro sub _
      by_cases hs : sub.id = subtaskId
      · exact ⟨by simp [toggleSubOne, hs], by simp [toggleSubOne, hs],
          fun hne => absurd hs hne, fun _ => by simp [toggleSubOne, hs]⟩
      · exact ⟨by simp [toggleSubOne, hs], by simp [toggleSubOne, hs],
          fun _ => by simp [toggleSubOne, hs], fun heq => absurd heq hs⟩

/-- Witness for C8 at a concrete store: the matching subtask flips, the
completed flag of the parent task stays. -/
theorem toggleSubtask_spec_witness :
    toggleSubtask 1 10
      [{ id := 1, text := .str "a", completed := true,
         subtasks := [{ id := 10, text := .str "s", completed := false }] }] =
      [{ id := 1, text := .str "a", completed := true,
         subtasks := [{ id := 10, text := .str "s", completed := true }] }] ∧
    (toggleTodoSubs 1 10
      { id := 1, text := .str "a", completed := true,
        subtasks := [{ id := 10, text := .str "s",
                       completed := false }] }).completed = true ∧
    (toggleSubOne 10
      { id := 10, text := .str "s", completed := false }).completed = true := by
  have h := toggleSubtask_spec 1 10
    [{ id := 1, text := .str "a", completed := true,
       subtasks := [{ id := 10, text := .str "s", completed := false }] }]
  refine ⟨rfl, ?_, ?_⟩
  · exact (h.2.2.2
      { id := 1, text := .str "a", completed := true,
        subtasks := [{ id := 10, text := .str "s", completed := false }] }
      (by simp)).2.2.1
  · exact ((h.2.2.2
      { id := 1, text := .str "a", completed := true,
        subtasks := [{ id := 10, text := .str "s", completed := false }] }
      (by simp)).2.2.2.2.2
      { id := 10, text := .str "s", completed := false }
      (by simp)).2.2.2 rfl

/-- C10: when a request is made (the prompt does not trim to empty), the
`generateWithAI` flow is all-or-nothing. Any thrown step after the request
is an `Except.error` of `generateInner`, and then the todo list and the
prompt input are left exactly as they were; the catch-all makes the flow a
total function, so no exception escapes; and the loading flag is false
once the invocation completes. A fetch or body-parse failure, and a parsed
body whose `tasks` field is absent or not an array, are all such thrown
steps. -/
theorem generateWithAI_failsoft (st : GenState) (outcome : FetchOutcome)
    (c : Nat) (hrun : jsTrim st.aiInput ≠ "") :
    (generateWithAI st outcome c).loadingAi = false ∧
    (generateInner c st.todos outcome = .error () →
      (generateWithAI st outcome c).todos = st.todos ∧
      (generateWithAI st outcome c).aiInput = st.aiInput) ∧
    (outcome = .jsError → generateInner c st.todos outcome = .error ()) ∧
    (∀ data : JsVal, outcome = .body data → tasksFieldIsArray data = false →
      generateInner c st.todos outcome = .error ()) := by
  refine ⟨?_, ?_, ?_, ?_⟩
  · rw [generateWithAI, if_neg hrun]
    cases hgen : generateInner c st.todos outcome with
    | ok p =>
      obtain ⟨ts, ai⟩ := p
      rfl
    | error e =>
      rfl
  · intro herr
    rw [generateWithAI, if_neg hrun, herr]
    exact ⟨rfl, rfl⟩
  · intro he
    subst he
    rfl
  · intro data he hta
    subst he
    rw [tasksFieldIsArray] at hta
    cases hj : jsGet data "tasks" with
    | error e =>
      simp [generateInner, hj]
    | ok v =>
      rw [hj] at hta
      cases v <;> simp_all [generateInner]

/-- Witness for C10: a failed fetch against a concrete state leaves the
todos unchanged with the loading flag cleared. -/
theorem generateWithAI_failsoft_witness :
    (generateWithAI
      { todos := [{ id := 3, text := .str "a", completed := false,
                    subtasks := [] }],
        aiInput := "plan my week", loadingAi := true } .jsError 0).todos =
      [{ id := 3, text := .str "a", completed := false, subtasks := [] }] ∧
    (generateWithAI
      { todos := [{ id := 3, text := .str "a", completed := false,
                    subtasks := [] }],
        aiInput := "plan my week", loadingAi := true } .jsError
      0).loadingAi = false := by
  have h := generateWithAI_failsoft
    { todos := [{ id := 3, text := .str "a", completed := false,
                  subtasks := [] }],
      aiInput := "plan my week", loadingAi := true } .jsError 0 (by decide)
  exact ⟨(h.2.1 (h.2.2.1 rfl)).1, h.1⟩

/-- C2 counterexample: a creation path does accept blank text. With an
empty store and the nonblank prompt "holiday plans", an AI round trip
whose upstream response parses to
`[{"task":"   ","subtasks":[" "]}]` puts a task with whitespace-only text
(and a whitespace-only subtask) into the store. -/
theorem generateWithAI_blank_counterexample :
    hasBlankEntity (generateWithAI
      { todos := [], aiInput := "holiday plans", loadingAi := false }
      (.body (post (.success (some (.arr
        [.obj [("task", .str "   "), ("subtasks", .arr [.str " "])]])))).body)
      0).todos = true := by
  decide

/-- C2 amended: the manual creation paths (`addTask` and the subtask
submit flow) reject text that trims to empty before an entity is created,
but the AI ingestion path performs no blank-text validation: the built
tasks and subtasks carry exactly the texts of the backend records,
including blank or whitespace-only strings. -/
theorem creation_paths_amended :
    (∀ (id : Nat) (t : String) (prev : List Todo),
      jsTrim t = "" → addTodo id t prev = prev) ∧
    (∀ (tid nid : Nat) (input : String) (prev : List Todo),
      jsTrim input = "" → handleSubtaskSubmit tid nid input prev = prev) ∧
    (∀ (c : Nat) (gts : List GeneratedTask),
      (mkTodos c gts).map Todo.text = gts.map (fun g => JsVal.str g.task)) ∧
    (∀ (c : Nat) (gts : List GeneratedTask),
      (mkTodos c gts).map (fun t => t.subtasks.map Subtask.text) =
        gts.map (fun g => g.subtasks.map JsVal.str)) := by
  refine ⟨?_, ?_, ?_, ?_⟩
  · intro id t prev h
    rw [addTodo, if_pos h]
  · intro tid nid input prev h
    rw [handleSubtaskSubmit, if_pos h]
  · intro c gts
    exact mkTodos_text c gts
  · intro c gts
    exact mkTodos_subtexts c gts

/-- Witness for the amended C2: both manual paths reject a whitespace-only
input, and a blank record text is carried into a built todo unchanged. -/
theorem creation_paths_amended_witness :
    addTodo 7 "   " [] = [] ∧
    handleSubtaskSubmit 1 2 "  " [] = [] ∧
    (mkTodos 0 [{ task := "   ", subtasks := [] }]).map Todo.text =
      [JsVal.str "   "] := by
  have h := creation_paths_amended
  exact ⟨h.1 7 "   " [] (by decide), h.2.1 1 2 "  " [] (by decide),
    (h.2.2.1 0 [{ task := "   ", subtasks := [] }]).trans rfl⟩

/-- C4: whenever the response text of the completion backend parses as a JSON
array of well-shaped `{task, subtasks}` records, the round trip through
the endpoint and `generateWithAI` turns each record into exactly one task
(one subtask per listed string, in order, everything not completed) and
prepends the resulting tasks to the store preserving their relative order,
the first record topmost, clearing the prompt and the loading flag. -/
theorem generateWithAI_wellformed (st : GenState) (c : Nat)
    (items : List JsVal) (gts : List GeneratedTask)
    (hprompt : jsTrim st.aiInput ≠ "")
    (hdec : decodeRecords items = some gts) :
    generateWithAI st (.body (post (.success (some (.arr items)))).body) c =
      { todos := mkTodos c gts ++ st.todos, aiInput := "",
        loadingAi := false } ∧
    (mkTodos c gts).length = gts.length ∧
    (mkTodos c gts).map Todo.text = gts.map (fun g => JsVal.str g.task) ∧
    (mkTodos c gts).map (fun t => t.subtasks.map Subtask.text) =
      gts.map (fun g => g.subtasks.map JsVal.str) ∧
    (mkTodos c gts).map Todo.completed = gts.map (fun _ => false) ∧
    (∀ t ∈ mkTodos c gts, ∀ sub ∈ t.subtasks, sub.completed = false) := by
  refine ⟨?_, mkTodos_length c gts, mkTodos_text c gts,
    mkTodos_subtexts c gts, mkTodos_completed c gts,
    mkTodos_sub_completed c gts⟩
  rw [generateWithAI, if_neg hprompt]
  have hmap := mapItems_decode items gts c hdec
  have hinner : generateInner c st.todos
      (.body (post (.success (some (.arr items)))).body) =
      .ok (mkTodos c gts ++ st.todos, "") := by
    show generateInner c st.todos (.body (.obj [("tasks", .arr items)])) = _
    simp [generateInner, jsGet, lookupField, hmap]
  rw [hinner]

/-- Witness for C4, realizing the spec scenario: the backend response text
`[{"task":"Plan trip","subtasks":["Book flight","Pack bags"]}]` yields
exactly one task "Plan trip" with the two subtasks "Book flight" and
"Pack bags" at the head of the store. -/
theorem generateWithAI_wellformed_witness :
    generateWithAI
      { todos := [{ id := 9, text := .str "old", completed := true,
                    subtasks := [] }],
        aiInput := "Plan a trip", loadingAi := true }
      (.body (post (.success (some (.arr
        [.obj [("task", .str "Plan trip"),
               ("subtasks", .arr [.str "Book flight",
                                  .str "Pack bags"])]])))).body) 0 =
      { todos :=
          [{ id := 0, text := .str "Plan trip", completed := false,
             subtasks := [{ id := 1, text := .str "Book flight",
                            completed := false },
                          { id := 2, text := .str "Pack bags",
                            completed := false }] },
           { id := 9, text := .str "old", completed := true,
             subtasks := [] }],
        aiInput := "", loadingAi := false } := by
  have h := generateWithAI_wellformed
    { todos := [{ id := 9, text := .str "old", completed := true,
                  subtasks := [] }],
      aiInput := "Plan a trip", loadingAi := true } 0
    [.obj [("task", .str "Plan trip"),
           ("subtasks", .arr [.str "Book flight", .str "Pack bags"])]]
    [{ task := "Plan trip", subtasks := ["Book flight", "Pack bags"] }]
    (by decide) (by decide)
  exact h.1.trans rfl
